import Mathlib

/-!
Verification of the frame-sync front end in `src/baseband/sync.rs`.

The `f32` samples of the source are idealized as exact rationals (`ℚ`);
the one square root (`sync_threshold`) is idealized over `ℝ`.  Stateful
structs become explicit state-passing functions.  The `static_fir`
ring-buffer FIR filter and the `moving_avg` moving average live outside
`src/`; they are modelled from the spec's words (§4.1, §4.3, §9) where
noted.
-/

namespace P25

/-- `FINGERPRINT_SAMPS`: number of samples in the frame sync fingerprint. -/
abbrev FINGERPRINT_SAMPS : ℕ := 231

/-- `SMOOTH_AVG`: number of sync sequences to smooth threshold estimates over. -/
abbrev SMOOTH_AVG : ℕ := 4

/-- The 231 fingerprint coefficients from `impl_fir!(SyncFingerprint, ...)`,
in source order: 24 symbol-impulse samples, each of the first 23 followed by
its 9 inter-symbol samples. -/
def FINGERPRINT_LIST : List ℚ := [
  1, 1, 1, 1, 1, 1, 1, 1, 1, 1,
  1, 1, 1, 1, 1, 1, 1, 1, 1, 1,
  1, 1, 1, 1, 1, 1, 1, 1, 1, 1,
  1, 1, 1, 1, 1, 1, 1, 1, 1, 1,
  1, 1, 1, 1, 1, 0, -1, -1, -1, -1,
  -1, -1, -1, -1, -1, 0, 1, 1, 1, 1,
  1, 1, 1, 1, 1, 1, 1, 1, 1, 1,
  1, 1, 1, 1, 1, 0, -1, -1, -1, -1,
  -1, -1, -1, -1, -1, -1, -1, -1, -1, -1,
  -1, -1, -1, -1, -1, 0, 1, 1, 1, 1,
  1, 1, 1, 1, 1, 1, 1, 1, 1, 1,
  1, 1, 1, 1, 1, 0, -1, -1, -1, -1,
  -1, -1, -1, -1, -1, -1, -1, -1, -1, -1,
  -1, -1, -1, -1, -1, -1, -1, -1, -1, -1,
  -1, -1, -1, -1, -1, -1, -1, -1, -1, -1,
  -1, -1, -1, -1, -1, 0, 1, 1, 1, 1,
  1, 1, 1, 1, 1, 0, -1, -1, -1, -1,
  -1, -1, -1, -1, -1, 0, 1, 1, 1, 1,
  1, 1, 1, 1, 1, 0, -1, -1, -1, -1,
  -1, -1, -1, -1, -1, -1, -1, -1, -1, -1,
  -1, -1, -1, -1, -1, -1, -1, -1, -1, -1,
  -1, -1, -1, -1, -1, -1, -1, -1, -1, -1,
  -1, -1, -1, -1, -1, -1, -1, -1, -1, -1,
  -1]

/-- The fingerprint as a function on sample indexes. -/
def fingerprint (i : Fin FINGERPRINT_SAMPS) : ℚ := FINGERPRINT_LIST.getD i.val 0

/-- Modelled from the spec: the `static_fir::FIRFilter` sample history (absent
from `src/`), per §9 "an array of fixed length 231 with a write cursor".
`buf` is the physical ring buffer and `cursor` the next write position, which
is also the physical position of the oldest retained sample. -/
structure FIRFilterState where
  buf : Fin FINGERPRINT_SAMPS → ℚ
  cursor : Fin FINGERPRINT_SAMPS

/-- Fresh filter state: zero history, cursor at the start. -/
def FIRFilterState.new : FIRFilterState := ⟨fun _ => 0, 0⟩

/-- Modelled from the spec: admitting one sample evicts the oldest (§4.1):
the new sample overwrites the physical slot of the oldest sample and the
cursor advances by one (wrapping). -/
def firFeed (st : FIRFilterState) (x : ℚ) : FIRFilterState :=
  { buf := fun p => if p = st.cursor then x else st.buf p
    cursor := st.cursor + 1 }

/-- Chronological view of the window (§9): logical index `i` (0 = oldest,
230 = newest) reads physical slot `cursor + i`, stitching the two physical
segments on either side of the wrap point. -/
def history (st : FIRFilterState) (i : Fin FINGERPRINT_SAMPS) : ℚ :=
  st.buf (st.cursor + i)

/-- The window as a list (for length/order statements). -/
def historyList (st : FIRFilterState) : List ℚ :=
  (List.finRange FINGERPRINT_SAMPS).map (history st)

/-- Modelled from the spec: the FIR correlation accumulator (§9 "a running
dot-product accumulator"), expressed over the physical buffer: each physical
slot `p` holds the sample whose logical age is `p - cursor`, and is weighted
by the fingerprint tap of that age. -/
def firOutput (st : FIRFilterState) : ℚ :=
  ∑ p : Fin FINGERPRINT_SAMPS, st.buf p * fingerprint (p - st.cursor)

/-- `SyncCorrelator::sig_power`: fold of squares over the (physically
ordered) history, divided by 231. -/
def sig_power (st : FIRFilterState) : ℚ :=
  (∑ p : Fin FINGERPRINT_SAMPS, (st.buf p) ^ 2) / (FINGERPRINT_SAMPS : ℚ)

/-- `SyncCorrelator::feed`: admit the sample, return the normalized
correlation power and the signal power, plus the mutated state. -/
def SyncCorrelator.feed (st : FIRFilterState) (x : ℚ) : (ℚ × ℚ) × FIRFilterState :=
  let st' := firFeed st x
  ((firOutput st' / (FINGERPRINT_SAMPS : ℚ), sig_power st'), st')

/-- Feeding a whole list of samples in arrival order. -/
def feedList (st : FIRFilterState) (xs : List ℚ) : FIRFilterState :=
  xs.foldl firFeed st

/-- `SyncDetector::detect` on an explicit state (`prev` field of the struct).
Returns the bool result and the state after the call.  Note the source's
early `return true` leaves `self.prev` untouched. -/
def detect (prev : Option ℚ) (corrpow thresh : ℚ) : Bool × Option ℚ :=
  match prev with
  | some p => if corrpow < p then (true, some p) else (false, some corrpow)
  | none => if corrpow > thresh then (false, some corrpow) else (false, none)

/-- Detector state after processing the first `n` samples of stream `s`
against a fixed threshold, starting from `SyncDetector::new` (prev `None`). -/
def detectStates (thresh : ℚ) (s : ℕ → ℚ) : ℕ → Option ℚ
  | 0 => none
  | n + 1 => (detect (detectStates thresh s n) (s n) thresh).2

/-- Result of the `detect` call made on sample `n` of stream `s`. -/
def detectOut (thresh : ℚ) (s : ℕ → ℚ) (n : ℕ) : Bool :=
  (detect (detectStates thresh s n) (s n) thresh).1

/-- Indexes of symbol instants for symbol 01 (`POS` in `calc_averages`),
as offsets into the 222-sample tail left after dropping the first 9. -/
def POS : List (Fin 222) := [0, 10, 20, 30, 50, 60, 90, 100, 150, 170]

/-- Indexes of symbol instants for symbol 11 (`NEG` in `calc_averages`). -/
def NEG : List (Fin 222) := [40, 70, 80, 110, 120, 130, 140, 160, 180, 190, 200, 210, 220]

/-- Indexing into `&samples[9..]`: offset `i` of the tail reads sample `9 + i`
of the full window; the bound `9 + i < 231` is what makes the source's slice
index panic-free. -/
def fpSlice (samples : Fin FINGERPRINT_SAMPS → ℚ) (i : Fin 222) : ℚ :=
  samples ⟨9 + i.val, by have h := i.isLt; show 9 + i.val < 231; omega⟩

/-- `calc_averages`: mean of the tail samples at the `POS` offsets and mean
of the tail samples at the `NEG` offsets. -/
def calc_averages (samples : Fin FINGERPRINT_SAMPS → ℚ) : ℚ × ℚ :=
  ((POS.map (fpSlice samples)).sum / (POS.length : ℚ),
   (NEG.map (fpSlice samples)).sum / (NEG.length : ℚ))

/-- `calc_thresholds`: upper, mid, lower symbol-decision thresholds. -/
def calc_thresholds (pavg navg : ℚ) : ℚ × ℚ × ℚ :=
  let mthresh := (pavg + navg) / 2
  let pthresh := mthresh + (pavg - mthresh) * (2 / 3)
  let nthresh := mthresh + (navg - mthresh) * (2 / 3)
  (pthresh, mthresh, nthresh)

/-- Modelled from the spec: `moving_avg::MovingAverage` (absent from `src/`),
per §4.3 step 2: "arithmetic mean of the last up to 4 values fed, including
the current call".  State is the retained values, most recent first. -/
def maFeed (vals : List ℚ) (x : ℚ) : ℚ × List ℚ :=
  let l := (x :: vals).take SMOOTH_AVG
  (l.sum / (l.length : ℚ), l)

/-- `SymbolThresholds` state: the two independent smoothing accumulators. -/
structure SymbolThresholds where
  psmooth : List ℚ
  nsmooth : List ℚ

/-- `SymbolThresholds::new`: fresh (empty) smoothing accumulators. -/
def SymbolThresholds.new : SymbolThresholds := ⟨[], []⟩

/-- `SymbolThresholds::thresholds`: extract averages, smooth each, and
synthesize the decision thresholds.  Returns the triple and the new state. -/
def SymbolThresholds.thresholds (st : SymbolThresholds)
    (sync : Fin FINGERPRINT_SAMPS → ℚ) : (ℚ × ℚ × ℚ) × SymbolThresholds :=
  let pn := calc_averages sync
  let pf := maFeed st.psmooth pn.1
  let nf := maFeed st.nsmooth pn.2
  (calc_thresholds pf.1 nf.1, ⟨pf.2, nf.2⟩)

/-- Estimator state after `n` consecutive calls on the same sync window. -/
def thresholdsIter (sync : Fin FINGERPRINT_SAMPS → ℚ) : ℕ → SymbolThresholds
  | 0 => SymbolThresholds.new
  | n + 1 => ((thresholdsIter sync n).thresholds sync).2

/-- `sync_threshold`: detection threshold scaled by RMS power. -/
noncomputable def sync_threshold (sigpower : ℝ) : ℝ :=
  Real.sqrt sigpower * 0.65

/-- The concrete stream 1, 2, 1, 0, 0, ... : strictly increasing to its
maximum at index 1, then strictly decreasing through index 3. -/
def s4 : ℕ → ℚ :=
  fun i => if i = 0 then 1 else if i = 1 then 2 else if i = 2 then 1 else 0

theorem fingerprint_length : FINGERPRINT_LIST.length = FINGERPRINT_SAMPS := by
  rfl


/-- C5: `calc_averages` drops the first 9 samples and returns the arithmetic
mean of the samples at the 10 positive-symbol offsets 0, 10, 20, 30, 50, 60,
90, 100, 150, 170 into the remainder, paired with the arithmetic mean of the
samples at the 13 negative-symbol offsets 40, 70, 80, 110, 120, 130, 140,
160, 180, 190, 200, 210, 220. -/
theorem calc_averages_spec (s : Fin FINGERPRINT_SAMPS → ℚ) :
    calc_averages s =
      ((s ⟨9 + 0, by norm_num⟩ + s ⟨9 + 10, by norm_num⟩ + s ⟨9 + 20, by norm_num⟩ +
        s ⟨9 + 30, by norm_num⟩ + s ⟨9 + 50, by norm_num⟩ + s ⟨9 + 60, by norm_num⟩ +
        s ⟨9 + 90, by norm_num⟩ + s ⟨9 + 100, by norm_num⟩ + s ⟨9 + 150, by norm_num⟩ +
        s ⟨9 + 170, by norm_num⟩) / 10,
       (s ⟨9 + 40, by norm_num⟩ + s ⟨9 + 70, by norm_num⟩ + s ⟨9 + 80, by norm_num⟩ +
        s ⟨9 + 110, by norm_num⟩ + s ⟨9 + 120, by norm_num⟩ + s ⟨9 + 130, by norm_num⟩ +
        s ⟨9 + 140, by norm_num⟩ + s ⟨9 + 160, by norm_num⟩ + s ⟨9 + 180, by norm_num⟩ +
        s ⟨9 + 190, by norm_num⟩ + s ⟨9 + 200, by norm_num⟩ + s ⟨9 + 210, by norm_num⟩ +
        s ⟨9 + 220, by norm_num⟩) / 13) := by
  simp only [calc_averages, POS, NEG, List.map_cons, List.map_nil, List.sum_cons,
    List.sum_nil, List.length_cons, List.length_nil, fpSlice]
  norm_num [show ((10:Fin 222):Nat) = 10 from rfl, show ((20:Fin 222):Nat) = 20 from rfl, show ((30:Fin 222):Nat) = 30 from rfl, show ((50:Fin 222):Nat) = 50 from rfl, show ((60:Fin 222):Nat) = 60 from rfl, show ((90:Fin 222):Nat) = 90 from rfl, show ((100:Fin 222):Nat) = 100 from rfl, show ((150:Fin 222):Nat) = 150 from rfl, show ((170:Fin 222):Nat) = 170 from rfl, show ((40:Fin 222):Nat) = 40 from rfl, show ((70:Fin 222):Nat) = 70 from rfl, show ((80:Fin 222):Nat) = 80 from rfl, show ((110:Fin 222):Nat) = 110 from rfl, show ((120:Fin 222):Nat) = 120 from rfl, show ((130:Fin 222):Nat) = 130 from rfl, show ((140:Fin 222):Nat) = 140 from rfl, show ((160:Fin 222):Nat) = 160 from rfl, show ((180:Fin 222):Nat) = 180 from rfl, show ((190:Fin 222):Nat) = 190 from rfl, show ((200:Fin 222):Nat) = 200 from rfl, show ((210:Fin 222):Nat) = 210 from rfl, show ((220:Fin 222):Nat) = 220 from rfl]
  constructor <;> ring


/-- C1 counterexample: in the tracking state `Some 1`, a call with
correlation power 0 (strictly below the peak) returns true, but the state
afterwards is still `Some 1`, not `None` — the claim's "state afterwards is
Idle" is false on the code. -/
theorem detect_reset_counterexample :
    (detect (some (1:ℚ)) 0 0).1 = true ∧ (detect (some (1:ℚ)) 0 0).2 ≠ none := by
  decide

/-- C1 (amended): whenever `detect` is called in the tracking state
`Some peak` with correlation power strictly below the peak, the call returns
true and the state is left unchanged at `Some peak` (the source's early
`return true` never writes `prev`), rather than being reset to `None`. -/
theorem detect_tracking_fall (p c t : ℚ) (h : c < p) :
    detect (some p) c t = (true, some p) := by
  simp [detect, h]

/-- Witness for C1's amended theorem at peak 1, power 0, threshold 0. -/
theorem detect_tracking_fall_witness :
    (0:ℚ) < 1 ∧ detect (some (1:ℚ)) 0 0 = (true, some 1) :=
  ⟨by norm_num, detect_tracking_fall 1 0 0 (by norm_num)⟩

/-- C6: `calc_thresholds p n` returns `(upper, mid, lower)` with
`mid = (p + n) / 2`, `upper = mid + (p - mid) * 2/3` and
`lower = mid + (n - mid) * 2/3`; and for any `q > 0`,
`calc_thresholds q (-q)` has `mid = 0` and `upper = -lower = q * 2/3`
(exact over `ℚ`). -/
theorem calc_thresholds_spec (p n q : ℚ) (hq : 0 < q) :
    calc_thresholds p n =
      ((p + n) / 2 + (p - (p + n) / 2) * (2 / 3), (p + n) / 2,
        (p + n) / 2 + (n - (p + n) / 2) * (2 / 3)) ∧
    (calc_thresholds q (-q)).2.1 = 0 ∧
    (calc_thresholds q (-q)).1 = q * (2 / 3) ∧
    (calc_thresholds q (-q)).2.2 = -(q * (2 / 3)) ∧
    (calc_thresholds q (-q)).1 = -(calc_thresholds q (-q)).2.2 := by
  refine ⟨rfl, ?_, ?_, ?_, ?_⟩ <;> simp [calc_thresholds] <;> ring

/-- Witness for C6 at `p = 1`, `n = 0`, `q = 1`. -/
theorem calc_thresholds_spec_witness :
    (0:ℚ) < 1 ∧
      (calc_thresholds 1 0 = ((1 + 0) / 2 + (1 - (1 + 0) / 2) * (2 / 3), (1 + 0) / 2,
        (1 + 0) / 2 + (0 - (1 + 0) / 2) * (2 / 3)) ∧
       (calc_thresholds 1 (-1)).2.1 = 0 ∧ (calc_thresholds 1 (-1)).1 = 1 * (2/3) ∧
       (calc_thresholds 1 (-1)).2.2 = -(1 * (2/3)) ∧
       (calc_thresholds 1 (-1)).1 = -(calc_thresholds 1 (-1)).2.2) :=
  ⟨by norm_num, calc_thresholds_spec 1 0 1 (by norm_num)⟩

/-- C7: `sync_threshold` returns exactly the square root of the signal
power multiplied by the constant 0.65 (= 65/100); e.g. at signal power 4 it
returns 2 * 0.65 = 1.3. -/
theorem sync_threshold_spec :
    (∀ x : ℝ, sync_threshold x = Real.sqrt x * (65 / 100)) ∧
    sync_threshold 4 = 13 / 10 := by
  constructor
  · intro x
    norm_num [sync_threshold]
  · have h : Real.sqrt 4 = 2 := by
      rw [show (4:ℝ) = 2 ^ 2 by norm_num]
      exact Real.sqrt_sq (by norm_num)
    rw [sync_threshold, h]
    norm_num

set_option maxRecDepth 4000 in
/-- C9: every array index taken inside `calc_averages` is within the
231-sample input (each tail offset `i < 222` gives `9 + i < 231`, and the
largest index actually used, over `POS ++ NEG`, is `9 + 220 = 229`), `POS`
and `NEG` have 10 and 13 entries, and `history` always yields exactly 231
elements; together with the fact that all embedded operations are total Lean
functions, no operation can fail or panic. -/
theorem operations_total :
    (∀ i : Fin 222, 9 + (i : ℕ) < FINGERPRINT_SAMPS) ∧
    ((POS ++ NEG).map (fun i => 9 + (i : ℕ))).maximum = ((229 : ℕ) : WithBot ℕ) ∧
    POS.length = 10 ∧ NEG.length = 13 ∧
    (∀ st : FIRFilterState, (historyList st).length = FINGERPRINT_SAMPS) := by
  refine ⟨by decide, by decide, by decide, by decide, fun st => ?_⟩
  simp [historyList]

/-- C10: the signal-power component returned by `SyncCorrelator::feed` is a
sum of squares divided by 231, hence nonnegative in every reachable state;
the value passed to `sync_threshold`'s square root is never negative. -/
theorem sig_power_nonneg (st : FIRFilterState) (x : ℚ) :
    0 ≤ (SyncCorrelator.feed st x).1.2 ∧ 0 ≤ sig_power st := by
  constructor
  · exact div_nonneg (Finset.sum_nonneg fun p _ => sq_nonneg _) (by norm_num)
  · exact div_nonneg (Finset.sum_nonneg fun p _ => sq_nonneg _) (by norm_num)


theorem detect_none (c t : ℚ) :
    detect none c t = if t < c then (false, some c) else (false, none) := rfl

theorem detect_some_lt (p c t : ℚ) (h : c < p) : detect (some p) c t = (true, some p) := by
  simp [detect, h]

theorem detect_some_ge (p c t : ℚ) (h : ¬ c < p) : detect (some p) c t = (false, some c) := by
  simp [detect, h]

theorem detectRise (thresh : ℚ) (s : ℕ → ℚ) (k : ℕ)
    (hinc : ∀ i, i < k → s i < s (i + 1)) :
    ∀ i, i ≤ k →
      detectOut thresh s i = false ∧
      detectStates thresh s (i + 1) = (if thresh < s i then some (s i) else none) := by
  intro i
  induction i with
  | zero =>
    intro _
    constructor
    · simp only [detectOut, detectStates, detect_none]
      split <;> rfl
    · simp only [detectStates, detect_none]
      split <;> rfl
  | succ j ih =>
    intro hjk
    have hj : j ≤ k := Nat.le_of_succ_le hjk
    have hjlt : j < k := hjk
    obtain ⟨-, hst⟩ := ih hj
    have hmono := hinc j hjlt
    by_cases h : thresh < s j
    · have hstate : detectStates thresh s (j + 1) = some (s j) := by rw [hst, if_pos h]
      have hge : ¬ s (j + 1) < s j := not_lt.mpr (le_of_lt hmono)
      constructor
      · simp [detectOut, hstate, detect_some_ge _ _ _ hge]
      · have hnext : detectStates thresh s (j + 1 + 1)
            = (detect (detectStates thresh s (j + 1)) (s (j + 1)) thresh).2 := rfl
        rw [hnext, hstate, detect_some_ge _ _ _ hge]
        have ht : thresh < s (j + 1) := lt_trans h hmono
        simp [ht]
    · have hstate : detectStates thresh s (j + 1) = none := by rw [hst, if_neg h]
      constructor
      · simp only [detectOut, hstate, detect_none]
        split <;> rfl
      · have hnext : detectStates thresh s (j + 1 + 1)
            = (detect (detectStates thresh s (j + 1)) (s (j + 1)) thresh).2 := rfl
        rw [hnext, hstate, detect_none]
        split <;> rfl

theorem sFallChain (s : ℕ → ℚ) (n k : ℕ)
    (hdec : ∀ i, k ≤ i → i + 1 < n → s (i + 1) < s i) :
    ∀ j, k < j → j < n → s j < s k := by
  intro j
  induction j with
  | zero => omega
  | succ m ih =>
    intro hkm hmn
    rcases Nat.lt_or_ge k m with hlt | hge
    · exact lt_trans (hdec m (le_of_lt hlt) hmn) (ih hlt (by omega))
    · have hkm' : k = m := by omega
      subst hkm'
      exact hdec k le_rfl hmn

theorem detectTrack (thresh : ℚ) (s : ℕ → ℚ) (n k : ℕ)
    (hinc : ∀ i, i < k → s i < s (i + 1))
    (hdec : ∀ i, k ≤ i → i + 1 < n → s (i + 1) < s i)
    (hex : thresh < s k) :
    ∀ i, k < i → i ≤ n → detectStates thresh s i = some (s k) := by
  intro i
  induction i with
  | zero => omega
  | succ m ih =>
    intro hki hin
    rcases Nat.lt_or_ge k m with hlt | hge
    · have hstm := ih hlt (by omega)
      have hfall : s m < s k := sFallChain s n k hdec m hlt (by omega)
      have hnext : detectStates thresh s (m + 1)
          = (detect (detectStates thresh s m) (s m) thresh).2 := rfl
      rw [hnext, hstm, detect_some_lt _ _ _ hfall]
    · have hkm : k = m := by omega
      subst hkm
      have hst := (detectRise thresh s k hinc k le_rfl).2
      rw [hst, if_pos hex]

/-- C2 (amended): for a strictly-increasing-then-strictly-decreasing power
stream whose maximum (at index `k`) exceeds the fixed threshold, `detect`
returns false for every sample up to and including the maximum and true for
every sample after it: the first detection fires exactly one sample after the
peak, but — because the source never resets `prev` on detection — it keeps
returning true on every later (falling) sample as well. -/
theorem detect_peak_law (thresh : ℚ) (s : ℕ → ℚ) (n k : ℕ) (hk : k < n)
    (hinc : ∀ i, i < k → s i < s (i + 1))
    (hdec : ∀ i, k ≤ i → i + 1 < n → s (i + 1) < s i)
    (hex : thresh < s k) (i : ℕ) (hi : i < n) :
    detectOut thresh s i = true ↔ k < i := by
  rcases Nat.lt_or_ge k i with hki | hik
  · have hst : detectStates thresh s i = some (s k) :=
      detectTrack thresh s n k hinc hdec hex i hki (le_of_lt hi)
    have hfall : s i < s k := sFallChain s n k hdec i hki hi
    simp [detectOut, hst, detect_some_lt _ _ _ hfall, hki]
  · have hout := (detectRise thresh s k hinc i hik).1
    simp [hout]
    omega

/-- Witness for C2's amended theorem: on the stream 1, 2, 1, 0 with
threshold 0, the sample immediately following the maximum is detected. -/
theorem detect_peak_law_witness : detectOut 0 s4 2 = true ↔ 1 < 2 :=
  detect_peak_law 0 s4 4 1 (by norm_num)
    (by
      intro i hi
      have : i = 0 := by omega
      subst this
      norm_num [s4])
    (by
      intro i h1 h2
      have : i = 1 ∨ i = 2 := by omega
      rcases this with h | h <;> subst h <;> norm_num [s4])
    (by norm_num [s4]) 2 (by norm_num)

/-- C2 counterexample: the stream 1, 2, 1, 0 (strictly increasing to its
maximum at index 1, then strictly decreasing, exceeding threshold 0) makes
`detect` return true at sample 3 as well, although the sample immediately
following the maximum is sample 2 — so "true exactly once" is false. -/
theorem detect_single_pulse_counterexample :
    (∀ i, i < 1 → s4 i < s4 (i + 1)) ∧
    (∀ i, 1 ≤ i → i + 1 < 4 → s4 (i + 1) < s4 i) ∧
    (0 : ℚ) < s4 1 ∧
    detectOut 0 s4 3 = true ∧ (3 : ℕ) ≠ 1 + 1 := by
  refine ⟨?_, ?_, by norm_num [s4], by decide, by norm_num⟩
  · intro i hi
    have : i = 0 := by omega
    subst this
    norm_num [s4]
  · intro i h1 h2
    have : i = 1 ∨ i = 2 := by omega
    rcases this with h | h <;> subst h <;> norm_num [s4]


theorem firFeed_history_last (st : FIRFilterState) (x : ℚ) :
    history (firFeed st x) ⟨FINGERPRINT_SAMPS - 1, by norm_num⟩ = x := by
  have h1 : ((1 : Fin FINGERPRINT_SAMPS) + ⟨FINGERPRINT_SAMPS - 1, by norm_num⟩) = 0 := by
    decide
  have h : st.cursor + 1 + (⟨FINGERPRINT_SAMPS - 1, by norm_num⟩ : Fin FINGERPRINT_SAMPS)
      = st.cursor := by
    rw [add_assoc, h1, add_zero]
  show (firFeed st x).buf (st.cursor + 1 + ⟨FINGERPRINT_SAMPS - 1, by norm_num⟩) = x
  rw [h]
  simp [firFeed]

theorem firFeed_history_shift (st : FIRFilterState) (x : ℚ) (i : ℕ)
    (h : i + 1 < FINGERPRINT_SAMPS) :
    history (firFeed st x) ⟨i, by omega⟩ = history st ⟨i + 1, h⟩ := by
  have h1 : ((1 : Fin FINGERPRINT_SAMPS) + ⟨i, by omega⟩) = (⟨i + 1, h⟩ : Fin FINGERPRINT_SAMPS) := by
    apply Fin.ext
    simp only [Fin.val_add, Fin.val_one, show FINGERPRINT_SAMPS = 231 from rfl]
    have h2 : i + 1 < 231 := h
    omega
  have h2 : st.cursor + (⟨i + 1, h⟩ : Fin FINGERPRINT_SAMPS) ≠ st.cursor := by
    intro hc
    have h3 := add_right_eq_self.mp hc
    have hv := congrArg Fin.val h3
    simp at hv
  show (firFeed st x).buf (st.cursor + 1 + ⟨i, by omega⟩) = st.buf (st.cursor + ⟨i + 1, h⟩)
  rw [add_assoc, h1]
  simp [firFeed, h2]

theorem history_sum (st : FIRFilterState) (G : ℚ → Fin FINGERPRINT_SAMPS → ℚ) :
    ∑ p : Fin FINGERPRINT_SAMPS, G (st.buf p) (p - st.cursor)
      = ∑ i : Fin FINGERPRINT_SAMPS, G (history st i) i := by
  rw [← Equiv.sum_comp (Equiv.addLeft st.cursor)
        (fun p => G (st.buf p) (p - st.cursor))]
  apply Finset.sum_congr rfl
  intro i _
  simp [history, add_sub_cancel_left]

/-- C3: after `feed` admits the sample into the 231-sample window (the new
sample becomes the newest history entry, every older entry shifts one place
down, the oldest is evicted), the returned pair is the inner product of the
current chronological window with the fingerprint divided by 231, paired with
the mean of the squares of the window samples. -/
theorem feed_spec (st : FIRFilterState) (x : ℚ) :
    (SyncCorrelator.feed st x).1.1
      = (∑ i : Fin FINGERPRINT_SAMPS, history (firFeed st x) i * fingerprint i)
          / (FINGERPRINT_SAMPS : ℚ) ∧
    (SyncCorrelator.feed st x).1.2
      = (∑ i : Fin FINGERPRINT_SAMPS, (history (firFeed st x) i) ^ 2)
          / (FINGERPRINT_SAMPS : ℚ) ∧
    history (firFeed st x) ⟨FINGERPRINT_SAMPS - 1, by norm_num⟩ = x ∧
    (∀ i : Fin (FINGERPRINT_SAMPS - 1),
      history (firFeed st x) ⟨i.val, by have h2 : i.val < 230 := i.isLt; show i.val < 231; omega⟩
        = history st ⟨i.val + 1, by have h2 : i.val < 230 := i.isLt; show i.val + 1 < 231; omega⟩) := by
  refine ⟨?_, ?_, firFeed_history_last st x, ?_⟩
  · show firOutput (firFeed st x) / _ = _
    rw [firOutput, history_sum (firFeed st x) (fun v i => v * fingerprint i)]
  · show sig_power (firFeed st x) = _
    rw [sig_power, history_sum (firFeed st x) (fun v _ => v ^ 2)]
  · intro i
    exact firFeed_history_shift st x i.val (by have h2 : i.val < 230 := i.isLt; show i.val + 1 < 231; omega)


theorem feedList_history (xs : List ℚ) (st : FIRFilterState) (i : Fin FINGERPRINT_SAMPS)
    (h : FINGERPRINT_SAMPS - i.val ≤ xs.length) :
    history (feedList st xs) i = xs.getD (xs.length - (FINGERPRINT_SAMPS - i.val)) 0 := by
  induction xs using List.reverseRecOn generalizing i with
  | nil =>
    have hi : i.val < 231 := i.isLt
    have h' : 231 - i.val ≤ 0 := h
    omega
  | append_singleton ys y ih =>
    have hi : i.val < 231 := i.isLt
    have h' : 231 - i.val ≤ ys.length + 1 := by simpa using h
    have hfeed : feedList st (ys ++ [y]) = firFeed (feedList st ys) y := by
      simp [feedList, List.foldl_append]
    have hlen : (ys ++ [y]).length = ys.length + 1 := by simp
    rcases Nat.lt_or_ge i.val 230 with hlt | hge
    · have hip : i.val + 1 < 231 := by omega
      have hib : history (feedList st (ys ++ [y])) i
          = history (feedList st ys) ⟨i.val + 1, hip⟩ := by
        rw [hfeed]
        exact firFeed_history_shift (feedList st ys) y i.val hip
      rw [hib, ih ⟨i.val + 1, hip⟩
        (show FINGERPRINT_SAMPS - (i.val + 1) ≤ ys.length by
          show 231 - (i.val + 1) ≤ ys.length
          omega)]
      have hidx : (ys ++ [y]).length - (FINGERPRINT_SAMPS - i.val) < ys.length := by
        rw [hlen]
        show ys.length + 1 - (231 - i.val) < ys.length
        omega
      rw [List.getD_append ys [y] 0 _ hidx]
      congr 1
      rw [hlen]
      show ys.length - (231 - (i.val + 1)) = ys.length + 1 - (231 - i.val)
      omega
    · have h230 : i = ⟨FINGERPRINT_SAMPS - 1, by norm_num⟩ := by
        apply Fin.ext
        show i.val = 230
        omega
      rw [hfeed, h230, firFeed_history_last]
      have hidx2 : ys.length ≤ (ys ++ [y]).length
          - (FINGERPRINT_SAMPS - (⟨FINGERPRINT_SAMPS - 1, by norm_num⟩ : Fin FINGERPRINT_SAMPS).val) := by
        rw [hlen]
        show ys.length ≤ ys.length + 1 - (231 - 230)
        omega
      rw [List.getD_append_right ys [y] 0 _ hidx2]
      have hz : (ys ++ [y]).length
          - (FINGERPRINT_SAMPS - (⟨FINGERPRINT_SAMPS - 1, by norm_num⟩ : Fin FINGERPRINT_SAMPS).val)
          - ys.length = 0 := by
        rw [hlen]
        show ys.length + 1 - (231 - 230) - ys.length = 0
        omega
      rw [hz]
      rfl


/-- C4: after feeding any `N ≥ 231` samples to a fresh correlator, the
history at logical position `i` is sample number `N - 231 + i` of the input
— i.e. `history()` is exactly the last 231 samples fed, oldest to newest,
regardless of where the ring buffer's wrap point falls. -/
theorem history_reconstruction (xs : List ℚ) (h : FINGERPRINT_SAMPS ≤ xs.length)
    (i : Fin FINGERPRINT_SAMPS) :
    history (feedList FIRFilterState.new xs) i
      = xs.getD (xs.length - FINGERPRINT_SAMPS + i.val) 0 ∧
    xs.length - FINGERPRINT_SAMPS + i.val < xs.length := by
  have h' : 231 ≤ xs.length := h
  have hi : i.val < 231 := i.isLt
  constructor
  · rw [feedList_history xs FIRFilterState.new i (by show 231 - i.val ≤ xs.length; omega)]
    congr 1
    show xs.length - (231 - i.val) = xs.length - 231 + i.val
    omega
  · show xs.length - 231 + i.val < xs.length
    omega

/-- Witness for C4 with 231 samples of value 1 and logical position 0. -/
theorem history_reconstruction_witness :
    FINGERPRINT_SAMPS ≤ (List.replicate 231 (1:ℚ)).length ∧
    (history (feedList FIRFilterState.new (List.replicate 231 (1:ℚ))) ⟨0, by norm_num⟩
        = (List.replicate 231 (1:ℚ)).getD
            ((List.replicate 231 (1:ℚ)).length - FINGERPRINT_SAMPS
              + (⟨0, by norm_num⟩ : Fin FINGERPRINT_SAMPS).val) 0 ∧
      (List.replicate 231 (1:ℚ)).length - FINGERPRINT_SAMPS
          + (⟨0, by norm_num⟩ : Fin FINGERPRINT_SAMPS).val < (List.replicate 231 (1:ℚ)).length) :=
  ⟨by rw [List.length_replicate], history_reconstruction (List.replicate 231 (1:ℚ))
    (by rw [List.length_replicate]) ⟨0, by norm_num⟩⟩

theorem thresholdsIter_state (sync : Fin FINGERPRINT_SAMPS → ℚ) (n : ℕ) :
    (thresholdsIter sync n).psmooth
      = List.replicate (min n SMOOTH_AVG) (calc_averages sync).1 ∧
    (thresholdsIter sync n).nsmooth
      = List.replicate (min n SMOOTH_AVG) (calc_averages sync).2 := by
  induction n with
  | zero => exact ⟨rfl, rfl⟩
  | succ m ih =>
    obtain ⟨hp, hq⟩ := ih
    constructor
    · show (maFeed (thresholdsIter sync m).psmooth (calc_averages sync).1).2 = _
      rw [maFeed, hp]
      simp only []
      rw [← List.replicate_succ, List.take_replicate]
      congr 1
      omega
    · show (maFeed (thresholdsIter sync m).nsmooth (calc_averages sync).2).2 = _
      rw [maFeed, hq]
      simp only []
      rw [← List.replicate_succ, List.take_replicate]
      congr 1
      omega

theorem maFeed_replicate (a : ℚ) :
    (maFeed (List.replicate SMOOTH_AVG a) a).1 = a := by
  rw [maFeed]
  simp only [← List.replicate_succ, List.take_replicate]
  have hm : min SMOOTH_AVG (SMOOTH_AVG + 1) = SMOOTH_AVG := by omega
  rw [hm]
  simp [List.sum_replicate, nsmul_eq_mul]

/-- C8: feeding the estimator the same sync window repeatedly makes both
smoothing accumulators converge exactly to `(pavg, navg)` by the 4th
consecutive call (state = four retained copies), and they remain there: on
every subsequent call the smoothed averages equal the raw pair and the output
is the fixed point `calc_thresholds pavg navg`. -/
theorem smoothing_convergence (sync : Fin FINGERPRINT_SAMPS → ℚ) (n : ℕ)
    (hn : SMOOTH_AVG ≤ n) :
    (thresholdsIter sync n).psmooth = List.replicate SMOOTH_AVG (calc_averages sync).1 ∧
    (thresholdsIter sync n).nsmooth = List.replicate SMOOTH_AVG (calc_averages sync).2 ∧
    (maFeed (thresholdsIter sync n).psmooth (calc_averages sync).1).1
      = (calc_averages sync).1 ∧
    (maFeed (thresholdsIter sync n).nsmooth (calc_averages sync).2).1
      = (calc_averages sync).2 ∧
    ((thresholdsIter sync n).thresholds sync).1
      = calc_thresholds (calc_averages sync).1 (calc_averages sync).2 := by
  obtain ⟨hp, hq⟩ := thresholdsIter_state sync n
  have hmin : min n SMOOTH_AVG = SMOOTH_AVG := min_eq_right hn
  rw [hmin] at hp hq
  refine ⟨hp, hq, ?_, ?_, ?_⟩
  · rw [hp, maFeed_replicate]
  · rw [hq, maFeed_replicate]
  · show calc_thresholds (maFeed (thresholdsIter sync n).psmooth (calc_averages sync).1).1
        (maFeed (thresholdsIter sync n).nsmooth (calc_averages sync).2).1 = _
    rw [hp, hq, maFeed_replicate, maFeed_replicate]

/-- Witness for C8 on the all-zero sync window at the 4th call. -/
theorem smoothing_convergence_witness :
    SMOOTH_AVG ≤ 4 ∧
    ((thresholdsIter (fun _ => (0:ℚ)) 4).psmooth
        = List.replicate SMOOTH_AVG (calc_averages (fun _ => (0:ℚ))).1 ∧
      (thresholdsIter (fun _ => (0:ℚ)) 4).nsmooth
        = List.replicate SMOOTH_AVG (calc_averages (fun _ => (0:ℚ))).2 ∧
      (maFeed (thresholdsIter (fun _ => (0:ℚ)) 4).psmooth (calc_averages (fun _ => (0:ℚ))).1).1
        = (calc_averages (fun _ => (0:ℚ))).1 ∧
      (maFeed (thresholdsIter (fun _ => (0:ℚ)) 4).nsmooth (calc_averages (fun _ => (0:ℚ))).2).1
        = (calc_averages (fun _ => (0:ℚ))).2 ∧
      ((thresholdsIter (fun _ => (0:ℚ)) 4).thresholds (fun _ => (0:ℚ))).1
        = calc_thresholds (calc_averages (fun _ => (0:ℚ))).1 (calc_averages (fun _ => (0:ℚ))).2) :=
  ⟨by norm_num, smoothing_convergence (fun _ => (0:ℚ)) 4 (by norm_num)⟩

end P25
